import Mathlib

/-!
A shallow embedding of the HTTP/1.1 server in `src/main.rs` of
codecrafters--build-your-own-http--rust.

Modelling choices:
* The TCP byte stream is a `List Char` (all protocol-relevant data is ASCII,
  so chars stand in for bytes; a request body is likewise a `List Char`).
* Rust `unwrap` panics are an explicit `POutcome.panic` outcome: the
  surrounding thread aborts there, so nothing past a panic is observable.
* The filesystem behind the `/files/` routes (`std::fs::read` / `write`) is
  the spec's byte-store collaborator, modelled as an explicit `Store` value
  whose errors carry a not-found flag (`ErrorKind::NotFound`) and a display
  text.
* Recursive loops (the header loop of `parse_request`, the per-connection
  loop of `handle`) are written with an explicit fuel argument so that every
  definition is structurally recursive and computable; the public wrappers
  supply `stream.length + 1` fuel, which is proved sufficient because each
  loop iteration consumes at least one character of the stream.
-/

/-- Outcome of running code that may hit an unrecoverable `unwrap` panic
(the panic aborts the handling thread, so no value is produced). -/
inductive POutcome (α : Type) where
  | ok : α → POutcome α
  | panic : POutcome α
deriving DecidableEq

/-- `enum Method` of `main.rs`. -/
inductive Method where
  | Get
  | Post
  | Unknown
deriving DecidableEq

/-- `enum Status` of `main.rs`. -/
inductive Status where
  | Ok
  | Created
  | NotFound
  | ServerError
deriving DecidableEq

/-- `Status::as_str` of `main.rs`. -/
def Status.as_str : Status → String
  | .Ok => "200 OK"
  | .Created => "201 Created"
  | .NotFound => "404 Not Found"
  | .ServerError => "500 Internal Server Error"

/-- The header map. `main.rs` uses `HashMap<String, String>`: keys are unique
and insertion is last-write-wins, which an association list with in-place
replacement models exactly (lookup order is irrelevant for unique keys). -/
abbrev Headers := List (String × String)

/-- `HashMap::insert`: replace the value of an existing key, else add the
entry. -/
def hinsert : Headers → String → String → Headers
  | [], k, v => [(k, v)]
  | (k', v') :: hs, k, v =>
    if k' = k then (k, v) :: hs else (k', v') :: hinsert hs k v

/-- `HashMap::get`. -/
def hget : Headers → String → Option String
  | [], _ => none
  | (k', v) :: hs, k => if k' = k then some v else hget hs k

/-- `struct Request` of `main.rs`. -/
structure Request where
  method : Method
  path : String
  version : String
  headers : Headers
  body : Option (List Char)
deriving DecidableEq

/-- `struct Response` of `main.rs`. -/
structure Response where
  status : Status
  headers : Headers
  body : Option (List Char)
deriving DecidableEq

/-- `Response::status` of `main.rs` (named `statusOnly` here because `status`
is the field accessor). -/
def Response.statusOnly (status : Status) : Response :=
  { status := status, headers := [], body := none }

/-- `Response::text` of `main.rs`. -/
def Response.text (status : Status) (text : String) : Response :=
  { status := status, headers := [("Content-Type", "text/plain")],
    body := some text.data }

/-- `Response::binary` of `main.rs`. -/
def Response.binary (data : List Char) : Response :=
  { status := Status.Ok, headers := [("Content-Type", "application/octet-stream")],
    body := some data }

/-- `BufRead::read_line`: the consumed chars up to and including the first
newline (the whole rest of the stream when no newline remains, the empty
string at EOF), paired with the unconsumed rest. -/
def readLineL : List Char → List Char × List Char
  | [] => ([], [])
  | c :: rest =>
    if c = '\n' then ([c], rest)
    else (c :: (readLineL rest).1, (readLineL rest).2)

/-- Rust `str::split` on a one-char pattern: cut at every separator, keeping
empty pieces, so the result always has one piece more than separators. -/
def splitChar (sep : Char) : List Char → List (List Char)
  | [] => [[]]
  | c :: rest =>
    match splitChar sep rest with
    | [] => [[c]]
    | p :: ps => if c = sep then [] :: p :: ps else (c :: p) :: ps

/-- Rust `str::find(':')` followed by slicing: the part before the first
colon and the part after it, or `none` when no colon occurs. -/
def splitColon : List Char → Option (List Char × List Char)
  | [] => none
  | c :: rest =>
    if c = ':' then some ([], rest)
    else
      match splitColon rest with
      | none => none
      | some kv => some (c :: kv.1, kv.2)

/-- The whitespace recognised by Rust's `str::trim` family, restricted to the
ASCII characters that can occur in this protocol. -/
def isWS (c : Char) : Bool :=
  c == ' ' || c == '\t' || c == '\n' || c == '\r'

/-- Rust `str::trim_end`. -/
def trimEndChars (s : List Char) : List Char :=
  (s.reverse.dropWhile isWS).reverse

/-- Rust `str::trim`. -/
def trimChars (s : List Char) : List Char :=
  trimEndChars (s.dropWhile isWS)

/-- Decimal value of a digit string. -/
def digitsToNat (ds : List Char) : Nat :=
  ds.foldl (fun a c => a * 10 + (c.toNat - 48)) 0

/-- The optional leading sign of an integer literal: the sign's value and
the remaining digits. -/
def signSplit : List Char → Int × List Char
  | '+' :: rest => (1, rest)
  | '-' :: rest => (-1, rest)
  | s => (1, s)

/-- Rust `str::parse::<i32>()`: an optional sign, then at least one digit,
and the value must fit in a signed 32-bit integer. -/
def parseI32 (s : List Char) : Option Int :=
  if (signSplit s).2 = [] then none
  else if (signSplit s).2.all Char.isDigit then
    if -(2 ^ 31) ≤ (signSplit s).1 * digitsToNat (signSplit s).2 ∧
        (signSplit s).1 * digitsToNat (signSplit s).2 ≤ 2 ^ 31 - 1 then
      some ((signSplit s).1 * digitsToNat (signSplit s).2)
    else none
  else none

/-- The header loop of `parse_request` (`main.rs` lines 118-131), with fuel:
read a line; stop at the bare CRLF line; otherwise split at the first colon
(`unwrap` panics when there is none), trim the value, insert, repeat. -/
def parseHeadersF : Nat → Headers → List Char → POutcome (Headers × List Char)
  | 0, _, _ => .panic
  | fuel + 1, hs, s =>
    if (readLineL s).1 = ['\r', '\n'] then .ok (hs, (readLineL s).2)
    else
      match splitColon (readLineL s).1 with
      | none => .panic
      | some kv =>
        parseHeadersF fuel
          (hinsert hs (String.mk kv.1) (String.mk (trimChars kv.2)))
          (readLineL s).2

/-- The header loop with its always-sufficient fuel. -/
def parseHeaders (hs : Headers) (s : List Char) : POutcome (Headers × List Char) :=
  parseHeadersF (s.length + 1) hs s

/-- Rust `i32 as u64`: sign-extend and reinterpret, i.e. reduce mod `2^64`. -/
def i32AsU64 (n : Int) : Nat :=
  (n % (2 : Int) ^ 64).toNat

/-- The method-token match of `parse_request` (`main.rs` lines 107-111). -/
def methodOfToken (m : List Char) : Method :=
  if String.mk m = "GET" then Method.Get
  else if String.mk m = "POST" then Method.Post
  else Method.Unknown

/-- `parse_request` of `main.rs`: read the start line and split it on the
space character; with exactly three fields parse headers, then for POST read
`Content-Length` (a missing header counts as 0, an unparsable one panics)
and take that many chars of body via `take(n).read_to_end` (which stops
early, without error, when the stream ends); any other field count means no
request is available. The result pairs the request with the unconsumed
stream. -/
def parse_request (s : List Char) : POutcome (Option (Request × List Char)) :=
  match splitChar ' ' (readLineL s).1 with
  | [m, p, v] =>
    match parseHeaders [] (readLineL s).2 with
    | .panic => .panic
    | .ok (headers, s2) =>
      if methodOfToken m = Method.Post then
        match hget headers "Content-Length" with
        | some x =>
          match parseI32 x.data with
          | none => .panic
          | some n =>
            if n ≠ 0 then
              .ok (some ({ method := methodOfToken m, path := String.mk (trimEndChars p),
                           version := String.mk (trimEndChars v),
                           headers := headers,
                           body := some (s2.take (i32AsU64 n)) }, s2.drop (i32AsU64 n)))
            else
              .ok (some ({ method := methodOfToken m, path := String.mk (trimEndChars p),
                           version := String.mk (trimEndChars v),
                           headers := headers, body := none }, s2))
        | none =>
          .ok (some ({ method := methodOfToken m, path := String.mk (trimEndChars p),
                       version := String.mk (trimEndChars v),
                       headers := headers, body := none }, s2))
      else
        .ok (some ({ method := methodOfToken m, path := String.mk (trimEndChars p),
                     version := String.mk (trimEndChars v),
                     headers := headers, body := none }, s2))
  | _ => .ok none

/-- An error from the byte store: `ErrorKind::NotFound` or not, plus the
`Display` text used for 500 bodies. -/
structure StoreError where
  notFound : Bool
  text : String
deriving DecidableEq

/-- The byte-store collaborator behind the `/files/` routes (`std::fs::read`
and `std::fs::write` in `main.rs`), keyed by the raw path remainder. -/
structure Store where
  read : String → Except StoreError (List Char)
  write : String → List Char → Except StoreError Unit

/-- Modelled from the spec: the `gzip` function of `main.rs` delegates to the
external `flate2` crate's `GzEncoder`, which is not part of this repository;
the spec constrains it only by "decompression must round-trip exactly to the
pre-compression bytes". It is modelled as an invertible encoding that
prepends the two gzip magic bytes, with inverse `gunzip`. -/
def gzip (buffer : List Char) : List Char :=
  Char.ofNat 0x1f :: Char.ofNat 0x8b :: buffer

/-- Modelled from the spec: the decompression inverse of `gzip`. -/
def gunzip (data : List Char) : List Char :=
  data.drop 2

/-- Rust `str::starts_with`. -/
def startsWithS (s p : String) : Bool :=
  p.data.isPrefixOf s.data

/-- Rust byte slicing `&s[n..]` (chars stand in for bytes). -/
def dropS (s : String) (n : Nat) : String :=
  String.mk (s.data.drop n)

/-- `encode` of `main.rs`: scan the comma-separated, trimmed tokens of
`Accept-Encoding`; the encoder is selected when some token equals "gzip"
(the loop keeps overwriting the selection, so any matching token selects
gzip); with a selected encoder and a present body, replace the body by its
compressed form and add `Content-Encoding: gzip`. -/
def encode (request : Request) (response : Response) : Response :=
  let gzipSelected :=
    match hget request.headers "Accept-Encoding" with
    | some ae => (splitChar ',' ae.data).any (fun nm => String.mk (trimChars nm) == "gzip")
    | none => false
  match response.body with
  | some body =>
    if gzipSelected then
      { response with body := some (gzip body),
                      headers := hinsert response.headers "Content-Encoding" "gzip" }
    else response
  | none => response

/-- `route` of `main.rs`. The only panic is `request.body.as_ref().unwrap()`
on a body-less POST to `/files/`. -/
def route (store : Store) (request : Request) : POutcome Response :=
  if request.path = "/" then .ok (Response.statusOnly Status.Ok)
  else if startsWithS request.path "/echo/" then
    .ok (Response.text Status.Ok (dropS request.path 6))
  else if startsWithS request.path "/user-agent" then
    .ok (Response.text Status.Ok ((hget request.headers "User-Agent").getD ""))
  else if startsWithS request.path "/files/" then
    if request.method = Method.Get then
      match store.read (dropS request.path 7) with
      | .ok data => .ok (Response.binary data)
      | .error e =>
        if e.notFound then .ok (Response.statusOnly Status.NotFound)
        else .ok (Response.text Status.ServerError e.text)
    else if request.method = Method.Post then
      match request.body with
      | none => .panic
      | some body =>
        match store.write (dropS request.path 7) body with
        | .ok _ => .ok (Response.statusOnly Status.Created)
        | .error e =>
          if e.notFound then .ok (Response.statusOnly Status.NotFound)
          else .ok (Response.text Status.ServerError e.text)
    else .ok (Response.statusOnly Status.NotFound)
  else .ok (Response.statusOnly Status.NotFound)

/-- The GET `/files/` arm of `route` (`main.rs` lines 255-259) as a function
of the store result, for stating how the store's answer is classified. -/
def fileGetResponse : Except StoreError (List Char) → Response
  | .ok data => Response.binary data
  | .error e =>
    if e.notFound then Response.statusOnly Status.NotFound
    else Response.text Status.ServerError e.text

/-- The POST `/files/` arm of `route` (`main.rs` lines 262-266) as a function
of the store result. -/
def filePostResponse : Except StoreError Unit → Response
  | .ok _ => Response.statusOnly Status.Created
  | .error e =>
    if e.notFound then Response.statusOnly Status.NotFound
    else Response.text Status.ServerError e.text

/-- `should_close` of `main.rs`: when the request's `Connection` header
equals "close", add `Connection: close` to the response and report true. -/
def should_close (request : Request) (response : Response) : Bool × Response :=
  match hget request.headers "Connection" with
  | some v =>
    if v = "close" then
      (true, { response with headers := hinsert response.headers "Connection" "close" })
    else (false, response)
  | none => (false, response)

/-- The header map `answer` serializes: the response's headers with
`Content-Length` set to the body's length (0 when there is no body). -/
def answerHeaders (response : Response) : Headers :=
  match response.body with
  | some body => hinsert response.headers "Content-Length" (toString body.length)
  | none => hinsert response.headers "Content-Length" "0"

/-- The header block as `answer` writes it: `key: value\r\n` per entry. -/
def renderHeaders : Headers → String
  | [] => ""
  | (k, v) :: hs => k ++ ": " ++ v ++ "\r\n" ++ renderHeaders hs

/-- `answer` of `main.rs` as the full byte sequence it writes: the request's
version, the status line, the headers (with the framing `Content-Length`),
a blank line, then the body when present. -/
def answer (request : Request) (response : Response) : String :=
  request.version ++ " " ++ response.status.as_str ++ "\r\n"
    ++ renderHeaders (answerHeaders response) ++ "\r\n"
    ++ String.mk (response.body.getD [])

/-- The connection loop `handle` of `main.rs`, with fuel: parse a request
(no request closes the loop cleanly, a panic aborts), route it, apply the
content encoder, decide keep-alive, write the answer, and either stop
(Connection: close) or loop on the unconsumed stream. The result lists the
serialized responses in order. -/
def handleF (store : Store) : Nat → List Char → POutcome (List String)
  | 0, _ => .panic
  | fuel + 1, s =>
    match parse_request s with
    | .panic => .panic
    | .ok none => .ok []
    | .ok (some (req, rest)) =>
      match route store req with
      | .panic => .panic
      | .ok resp0 =>
        let scr := should_close req (encode req resp0)
        let out := answer req scr.2
        if scr.1 then .ok [out]
        else
          match handleF store fuel rest with
          | .panic => .panic
          | .ok outs => .ok (out :: outs)

/-- The connection loop with its always-sufficient fuel. -/
def handle (store : Store) (s : List Char) : POutcome (List String) :=
  handleF store (s.length + 1) s

/-- A store on an empty root: every read fails with the OS not-found error,
as does every write (no parent directory). -/
def emptyStore : Store where
  read _ := .error { notFound := true, text := "No such file or directory (os error 2)" }
  write _ _ := .error { notFound := true, text := "No such file or directory (os error 2)" }

/-- A store whose reads fail with a non-not-found error that echoes the key:
the 500 body then reveals exactly which key reached the store. -/
def probeStore : Store where
  read k := .error { notFound := false, text := k }
  write _ _ := .ok ()

/-- A store holding the bytes "hi" under every key. -/
def constStore : Store where
  read _ := .ok ('h' :: 'i' :: [])
  write _ _ := .ok ()

theorem readLineL_append (s : List Char) : (readLineL s).1 ++ (readLineL s).2 = s := by
  induction s with
  | nil => rfl
  | cons c rest ih =>
    by_cases h : c = '\n' <;> simp [readLineL, h, ih]

theorem readLineL_rest_le (s : List Char) : (readLineL s).2.length ≤ s.length := by
  have h := congrArg List.length (readLineL_append s)
  rw [List.length_append] at h
  omega

theorem readLineL_rest_lt (s : List Char) (h : (readLineL s).1 ≠ []) :
    (readLineL s).2.length < s.length := by
  have he := congrArg List.length (readLineL_append s)
  rw [List.length_append] at he
  cases hq : (readLineL s).1 with
  | nil => exact absurd hq h
  | cons a t => rw [hq] at he; simp only [List.length_cons] at he; omega

theorem parseHeadersF_rest_le :
    ∀ (fuel : Nat) (hs : Headers) (s : List Char) (r : Headers × List Char),
      parseHeadersF fuel hs s = .ok r → r.2.length ≤ s.length := by
  intro fuel
  induction fuel with
  | zero => intro hs s r h; simp [parseHeadersF] at h
  | succ f ih =>
    intro hs s r h
    rw [parseHeadersF] at h
    split at h
    · cases h
      exact readLineL_rest_le s
    · split at h
      · cases h
      · have hrec := ih _ _ _ h
        have := readLineL_rest_le s
        omega

theorem splitChar_nil (sep : Char) : splitChar sep [] = [[]] := rfl

theorem parse_request_consumes {s : List Char} {req : Request} {rest : List Char}
    (h : parse_request s = .ok (some (req, rest))) : rest.length < s.length := by
  rw [parse_request] at h
  split at h
  case h_1 m p v heq =>
    have hne : (readLineL s).1 ≠ [] := by
      intro hnil
      rw [hnil, splitChar_nil] at heq
      cases heq
    have h1 : (readLineL s).2.length < s.length := readLineL_rest_lt s hne
    split at h
    · cases h
    case h_2 headers s2 hph =>
      have h2 : s2.length ≤ (readLineL s).2.length :=
        parseHeadersF_rest_le _ _ _ _ hph
      have hr : rest.length ≤ s2.length := by
        split at h
        · split at h
          · split at h
            · cases h
            · split at h
              · cases h
                rw [List.length_drop]
                omega
              · cases h
                exact le_rfl
          · cases h
            exact le_rfl
        · cases h
          exact le_rfl
      omega
  case h_2 => cases h

theorem handleF_congr (store : Store) :
    ∀ (f f' : Nat) (s : List Char), s.length < f → s.length < f' →
      handleF store f s = handleF store f' s := by
  intro f
  induction f with
  | zero => intro f' s hf _; omega
  | succ a ih =>
    intro f' s hf hf'
    cases f' with
    | zero => omega
    | succ b =>
      rw [handleF, handleF]
      split
      · rfl
      · rfl
      · rename_i req rest hp
        split
        · rfl
        · rename_i resp0 hr
          have hrest : rest.length < s.length := parse_request_consumes hp
          simp only [ih b rest (by omega) (by omega)]

theorem handle_step (store : Store) (s : List Char) (req : Request)
    (rest : List Char) (resp0 : Response)
    (hp : parse_request s = .ok (some (req, rest)))
    (hr : route store req = .ok resp0) :
    handle store s =
      (if (should_close req (encode req resp0)).1 then
        .ok [answer req (should_close req (encode req resp0)).2]
      else
        match handle store rest with
        | .panic => .panic
        | .ok outs => .ok (answer req (should_close req (encode req resp0)).2 :: outs)) := by
  have hrest : rest.length < s.length := parse_request_consumes hp
  rw [handle, handleF]
  simp only [hp, hr]
  rw [handle]
  rw [handleF_congr store s.length (rest.length + 1) rest (by omega) (by omega)]

theorem hget_hinsert_self (hs : Headers) (k v : String) :
    hget (hinsert hs k v) k = some v := by
  induction hs with
  | nil => simp [hinsert, hget]
  | cons h t ih =>
    cases h with
    | mk k' v' =>
      by_cases hk : k' = k
      · simp [hinsert, hget, hk]
      · simp [hinsert, hget, hk, ih]

theorem parseI32_range (ds : List Char) (n : Int) (h : parseI32 ds = some n) :
    -(2 ^ 31) ≤ n ∧ n ≤ 2 ^ 31 - 1 := by
  rw [parseI32] at h
  split at h
  · cases h
  · split at h
    · split at h
      · cases h
        assumption
      · cases h
    · cases h

theorem i32AsU64_of_pos (n : Int) (h0 : 0 < n) (h1 : n ≤ 2 ^ 31 - 1) :
    i32AsU64 n = n.toNat := by
  rw [i32AsU64]
  rw [Int.emod_eq_of_lt (by omega) (by norm_num; omega)]

theorem files_path_ne_root (k : String) :
    String.mk ('/' :: 'f' :: 'i' :: 'l' :: 'e' :: 's' :: '/' :: k.data) ≠ "/" := by
  intro h
  have hd := congrArg String.data h
  simp at hd

theorem files_path_not_echo (k : String) :
    startsWithS (String.mk ('/' :: 'f' :: 'i' :: 'l' :: 'e' :: 's' :: '/' :: k.data)) "/echo/"
      = false := rfl

theorem files_path_not_user_agent (k : String) :
    startsWithS (String.mk ('/' :: 'f' :: 'i' :: 'l' :: 'e' :: 's' :: '/' :: k.data)) "/user-agent"
      = false := rfl

theorem files_path_is_files (k : String) :
    startsWithS (String.mk ('/' :: 'f' :: 'i' :: 'l' :: 'e' :: 's' :: '/' :: k.data)) "/files/"
      = true := by
  obtain ⟨d⟩ := k
  cases d <;> rfl

theorem files_path_drop7 (k : String) :
    dropS (String.mk ('/' :: 'f' :: 'i' :: 'l' :: 'e' :: 's' :: '/' :: k.data)) 7 = k := by
  obtain ⟨d⟩ := k
  rfl

theorem route_files_get (store : Store) (req : Request) (k : String)
    (hm : req.method = Method.Get)
    (hp : req.path = String.mk ('/' :: 'f' :: 'i' :: 'l' :: 'e' :: 's' :: '/' :: k.data)) :
    route store req = .ok (fileGetResponse (store.read k)) := by
  rw [route, hp, hm]
  rw [if_neg (files_path_ne_root k)]
  rw [files_path_not_echo k, files_path_not_user_agent k, files_path_is_files k]
  simp only [Bool.false_eq_true, if_false, if_true, files_path_drop7 k]
  cases store.read k with
  | ok d => rfl
  | error e =>
    by_cases hnf : e.notFound = true
    · simp [fileGetResponse, hnf]
    · simp [fileGetResponse, hnf]

theorem route_files_post (store : Store) (req : Request) (k : String) (b : List Char)
    (hm : req.method = Method.Post)
    (hb : req.body = some b)
    (hp : req.path = String.mk ('/' :: 'f' :: 'i' :: 'l' :: 'e' :: 's' :: '/' :: k.data)) :
    route store req = .ok (filePostResponse (store.write k b)) := by
  rw [route, hp, hm]
  rw [if_neg (files_path_ne_root k)]
  rw [files_path_not_echo k, files_path_not_user_agent k, files_path_is_files k]
  simp only [Bool.false_eq_true, if_false, if_true, files_path_drop7 k, hb]
  cases store.write k b with
  | ok u => rfl
  | error e =>
    by_cases hnf : e.notFound = true
    · simp [filePostResponse, hnf]
    · simp [filePostResponse, hnf]

/-- Claim C1 (the code aborts instead): at a header line with no colon, and
at a POST whose `Content-Length` value is non-numeric, `parse_request`
panics (`unwrap` on `None`/`Err`), aborting the handling thread, instead of
returning the structured "bad request" outcome the claim requires. -/
theorem c1_malformed_header_panics :
    parse_request ("GET / HTTP/1.1\r\nBadHeader\r\n\r\n".data) = .panic ∧
    parse_request ("POST / HTTP/1.1\r\nContent-Length: abc\r\n\r\n".data) = .panic :=
  ⟨by decide, by decide⟩

/-- Claim C9: when the first line does not split on the space character into
exactly three fields (the empty line of a clean EOF included),
`parse_request` reports that no request is available and the connection loop
closes cleanly, emitting no response. -/
theorem c9_bad_start_line_clean_close :
    ∀ (store : Store) (s : List Char),
      (splitChar ' ' (readLineL s).1).length ≠ 3 →
      parse_request s = .ok none ∧ handle store s = .ok [] := by
  intro store s h3
  have hp : parse_request s = .ok none := by
    rw [parse_request]
    split
    · rename_i m p v heq
      exact absurd (by rw [heq]; rfl : (splitChar ' ' (readLineL s).1).length = 3) h3
    · rfl
  refine ⟨hp, ?_⟩
  rw [handle, handleF]
  rw [hp]

/-- Witness for C9 at the concrete stream "junk" + CRLF. -/
theorem c9_witness :
    parse_request ("junk\r\n".data) = .ok none ∧
      handle emptyStore ("junk\r\n".data) = .ok [] :=
  c9_bad_start_line_clean_close emptyStore ("junk\r\n".data) (by decide)

/-- Claim C3: the header map `answer` serializes always carries
`Content-Length` equal to the byte length of the body present at
serialization time (0 when there is none), and on the wire the
`GET / HTTP/1.1` scenario produces exactly
`HTTP/1.1 200 OK` + CRLF + `Content-Length: 0` + CRLF + CRLF. -/
theorem c3_content_length_equals_body_length :
    (∀ (resp : Response) (b : List Char), resp.body = some b →
      hget (answerHeaders resp) "Content-Length" = some (toString b.length)) ∧
    (∀ resp : Response, resp.body = none →
      hget (answerHeaders resp) "Content-Length" = some "0") ∧
    handle emptyStore ("GET / HTTP/1.1\r\n\r\n".data)
      = .ok ["HTTP/1.1 200 OK\r\nContent-Length: 0\r\n\r\n"] := by
  refine ⟨?_, ?_, by decide⟩
  · intro resp b hb
    obtain ⟨st, hs, bd⟩ := resp
    have hb' : bd = some b := hb
    subst hb'
    exact hget_hinsert_self hs "Content-Length" (toString b.length)
  · intro resp hb
    obtain ⟨st, hs, bd⟩ := resp
    have hb' : bd = none := hb
    subst hb'
    exact hget_hinsert_self hs "Content-Length" "0"

/-- Witness for C3 at a concrete three-byte body and at the body-less
response of `GET /`. -/
theorem c3_witness :
    hget (answerHeaders (Response.text Status.Ok "abc")) "Content-Length" = some "3" ∧
      hget (answerHeaders (Response.statusOnly Status.Ok)) "Content-Length" = some "0" :=
  ⟨(c3_content_length_equals_body_length.1 (Response.text Status.Ok "abc")
      ("abc".data) rfl).trans (by decide),
   c3_content_length_equals_body_length.2.1 (Response.statusOnly Status.Ok) rfl⟩

/-- Counterexample to claim C8 as stated: `route` ignores the method on the
`/echo/` prefix, so a POST to `/echo/abc` is answered 200 with body "abc",
not 404. -/
theorem c8_counterexample_post_echo :
    route emptyStore { method := Method.Post, path := "/echo/abc", version := "HTTP/1.1",
                       headers := [], body := none }
        = .ok (Response.text Status.Ok "abc") ∧
      (Response.text Status.Ok "abc").status ≠ Status.NotFound :=
  ⟨by decide, by decide⟩

theorem echo_path_ne_root (k : String) :
    String.mk ('/' :: 'e' :: 'c' :: 'h' :: 'o' :: '/' :: k.data) ≠ "/" := by
  intro h
  have hd := congrArg String.data h
  simp at hd

theorem echo_path_is_echo (k : String) :
    startsWithS (String.mk ('/' :: 'e' :: 'c' :: 'h' :: 'o' :: '/' :: k.data)) "/echo/"
      = true := by
  obtain ⟨d⟩ := k
  cases d <;> rfl

theorem echo_path_drop6 (k : String) :
    dropS (String.mk ('/' :: 'e' :: 'c' :: 'h' :: 'o' :: '/' :: k.data)) 6 = k := by
  obtain ⟨d⟩ := k
  rfl

theorem ua_path_ne_root (k : String) :
    String.mk ('/' :: 'u' :: 's' :: 'e' :: 'r' :: '-' :: 'a' :: 'g' :: 'e' :: 'n' :: 't'
        :: k.data) ≠ "/" := by
  intro h
  have hd := congrArg String.data h
  simp at hd

theorem ua_path_not_echo (k : String) :
    startsWithS
        (String.mk ('/' :: 'u' :: 's' :: 'e' :: 'r' :: '-' :: 'a' :: 'g' :: 'e' :: 'n' :: 't'
          :: k.data)) "/echo/" = false := rfl

theorem ua_path_is_ua (k : String) :
    startsWithS
        (String.mk ('/' :: 'u' :: 's' :: 'e' :: 'r' :: '-' :: 'a' :: 'g' :: 'e' :: 'n' :: 't'
          :: k.data)) "/user-agent" = true := by
  obtain ⟨d⟩ := k
  cases d <;> rfl

/-- Claim C8 as amended: `route` returns 404 with an empty body whenever the
path matches none of the four route prefixes, and whenever the path starts
with "/files/" but the method is neither GET nor POST; the route table's
method column is not enforced for the "/", "/echo/" and "/user-agent" rows,
whose 200 response is produced for every method (404 can also arise from the
"/files/" rows, when the store reports not-found). -/
theorem c8_amended_no_match_404 :
    (∀ (store : Store) (req : Request),
      req.path ≠ "/" →
      startsWithS req.path "/echo/" = false →
      startsWithS req.path "/user-agent" = false →
      (startsWithS req.path "/files/" = false ∨ req.method = Method.Unknown) →
      route store req = .ok (Response.statusOnly Status.NotFound) ∧
        (Response.statusOnly Status.NotFound).body = none) ∧
    (∀ (store : Store) (req : Request),
      req.path = "/" →
      route store req = .ok (Response.statusOnly Status.Ok)) ∧
    (∀ (store : Store) (req : Request) (k : String),
      req.path = String.mk ('/' :: 'e' :: 'c' :: 'h' :: 'o' :: '/' :: k.data) →
      route store req = .ok (Response.text Status.Ok k)) ∧
    (∀ (store : Store) (req : Request) (k : String),
      req.path = String.mk ('/' :: 'u' :: 's' :: 'e' :: 'r' :: '-' :: 'a' :: 'g' :: 'e'
          :: 'n' :: 't' :: k.data) →
      route store req
        = .ok (Response.text Status.Ok ((hget req.headers "User-Agent").getD ""))) := by
  refine ⟨?_, ?_, ?_, ?_⟩
  · intro store req h1 h2 h3 h4
    refine ⟨?_, rfl⟩
    rw [route, if_neg h1]
    rw [h2, h3]
    rcases h4 with hf | hm
    · rw [hf]
      simp
    · rw [hm]
      by_cases hff : startsWithS req.path "/files/" = true
      · rw [hff]
        simp
      · simp only [Bool.not_eq_true] at hff
        rw [hff]
        simp
  · intro store req hp
    rw [route, if_pos hp]
  · intro store req k hp
    rw [route, hp]
    rw [if_neg (echo_path_ne_root k)]
    rw [echo_path_is_echo k]
    simp only [if_true, echo_path_drop6 k]
  · intro store req k hp
    rw [route, hp]
    rw [if_neg (ua_path_ne_root k)]
    rw [ua_path_not_echo k, ua_path_is_ua k]
    simp only [Bool.false_eq_true, if_false, if_true]

/-- Witness for C8 (amended): `GET /nope` is answered 404 with an empty
body, while a POST to `/echo/abc` and a POST to `/user-agent` get the
row's 200 response, the method notwithstanding. -/
theorem c8_witness :
    (route emptyStore { method := Method.Get, path := "/nope", version := "HTTP/1.1",
                        headers := [], body := none }
        = .ok (Response.statusOnly Status.NotFound) ∧
      (Response.statusOnly Status.NotFound).body = none) ∧
    route emptyStore { method := Method.Post, path := "/echo/abc", version := "HTTP/1.1",
                       headers := [], body := none }
      = .ok (Response.text Status.Ok "abc") ∧
    route emptyStore { method := Method.Post, path := "/user-agent", version := "HTTP/1.1",
                       headers := [("User-Agent", "curl")], body := none }
      = .ok (Response.text Status.Ok "curl") := by
  refine ⟨?_, ?_, ?_⟩
  · exact c8_amended_no_match_404.1 emptyStore
      { method := Method.Get, path := "/nope", version := "HTTP/1.1",
        headers := [], body := none }
      (by decide) (by decide) (by decide) (Or.inl (by decide))
  · exact c8_amended_no_match_404.2.2.1 emptyStore
      { method := Method.Post, path := "/echo/abc", version := "HTTP/1.1",
        headers := [], body := none }
      "abc" (by decide)
  · exact (c8_amended_no_match_404.2.2.2 emptyStore
      { method := Method.Post, path := "/user-agent", version := "HTTP/1.1",
        headers := [("User-Agent", "curl")], body := none }
      "" (by decide)).trans (by decide)

/-- Counterexample to claim C2 as stated: `Content-Length: -1` is not a
positive integer (it parses as the negative `i32` -1), yet the parsed POST
request carries a present body (the i32-to-u64 cast turns -1 into a huge
read limit, so the whole remaining stream is read). -/
theorem c2_counterexample_negative_content_length :
    parse_request ("POST /x HTTP/1.1\r\nContent-Length: -1\r\n\r\nab".data) =
      .ok (some ({ method := Method.Post, path := "/x", version := "HTTP/1.1",
                   headers := [("Content-Length", "-1")],
                   body := some ('a' :: 'b' :: []) }, [])) ∧
    parseI32 ("-1".data) = some (-1) ∧ ¬(0 < (-1 : Int)) :=
  ⟨by decide, by decide, by decide⟩

/-- Claim C2 as amended: a parsed request's body is present exactly when the
method is POST and a `Content-Length` header was supplied whose value parses
as a nonzero signed 32-bit integer (negative values included); it is absent
when the header is missing, parses to zero, or the method is not POST. -/
theorem c2_body_iff_nonzero_content_length :
    ∀ (s : List Char) (req : Request) (rest : List Char),
      parse_request s = .ok (some (req, rest)) →
      (req.body ≠ none ↔
        req.method = Method.Post ∧
          ∃ x n, hget req.headers "Content-Length" = some x ∧
            parseI32 x.data = some n ∧ n ≠ 0) := by
  intro s req rest h
  rw [parse_request] at h
  split at h
  case h_2 => cases h
  case h_1 m p v heq =>
    split at h
    · cases h
    case h_2 headers s2 hph =>
      split at h
      case isTrue hpost =>
        split at h
        case h_1 x hget_eq =>
          split at h
          case h_1 hi32 => cases h
          case h_2 n hi32 =>
            split at h
            case isTrue hn0 =>
              cases h
              constructor
              · intro _
                exact ⟨hpost, x, n, hget_eq, hi32, hn0⟩
              · intro _
                simp
            case isFalse hn0 =>
              cases h
              constructor
              · intro hb
                exact absurd rfl hb
              · rintro ⟨-, x', n', hx', hi', hn'⟩
                have hx : some x = some x' := by rw [← hget_eq]; exact hx'
                cases hx
                have hn : some n = some n' := by rw [← hi32]; exact hi'
                cases hn
                exact absurd (not_not.mp hn0) hn'
        case h_2 hget_eq =>
          cases h
          constructor
          · intro hb
            exact absurd rfl hb
          · rintro ⟨-, x', n', hx', -, -⟩
            have : (none : Option String) = some x' := by rw [← hget_eq]; exact hx'
            cases this
      case isFalse hpost =>
        cases h
        constructor
        · intro hb
          exact absurd rfl hb
        · rintro ⟨hm, -⟩
          exact absurd hm hpost

/-- Witness for C2 (amended) at a concrete POST with `Content-Length: 2`. -/
theorem c2_witness :
    (some ('h' :: 'i' :: []) : Option (List Char)) ≠ none ↔
      Method.Post = Method.Post ∧
        ∃ x n, hget [("Content-Length", "2")] "Content-Length" = some x ∧
          parseI32 x.data = some n ∧ n ≠ 0 :=
  c2_body_iff_nonzero_content_length
    ("POST /y HTTP/1.1\r\nContent-Length: 2\r\n\r\nhi".data)
    { method := Method.Post, path := "/y", version := "HTTP/1.1",
      headers := [("Content-Length", "2")], body := some ('h' :: 'i' :: []) }
    [] (by decide)

/-- Counterexample to claim C7 as stated: with `Content-Length: 5` but only
three body bytes before EOF, parsing succeeds (no IoError) and returns a
request whose body is the three available bytes, shorter than 5. -/
theorem c7_counterexample_premature_eof :
    parse_request ("POST /x HTTP/1.1\r\nContent-Length: 5\r\n\r\nabc".data) =
      .ok (some ({ method := Method.Post, path := "/x", version := "HTTP/1.1",
                   headers := [("Content-Length", "5")],
                   body := some ('a' :: 'b' :: 'c' :: []) }, [])) ∧
    ('a' :: 'b' :: 'c' :: []).length < 5 :=
  ⟨by decide, by decide⟩

/-- Claim C7 as amended: for a POST whose `Content-Length` parses to a
positive n, the body read via `take(n).read_to_end` is present and holds at
most n bytes; it is shorter than n only when the stream was exhausted (the
unconsumed rest is empty), and no error is reported in that case. -/
theorem c7_body_at_most_content_length :
    ∀ (s : List Char) (req : Request) (rest : List Char) (x : String) (n : Int),
      parse_request s = .ok (some (req, rest)) →
      req.method = Method.Post →
      hget req.headers "Content-Length" = some x →
      parseI32 x.data = some n →
      0 < n →
      ∃ b, req.body = some b ∧ b.length ≤ n.toNat ∧
        (b.length < n.toNat → rest = []) := by
  intro s req rest x n h hm hcl hi32 hpos
  rw [parse_request] at h
  split at h
  case h_2 => cases h
  case h_1 m p v heq =>
    split at h
    · cases h
    case h_2 headers s2 hph =>
      split at h
      case isTrue hpost =>
        split at h
        case h_1 x' hget_eq =>
          split at h
          case h_1 hi' => cases h
          case h_2 n' hi' =>
            split at h
            case isTrue hn0 =>
              cases h
              have hx : some x' = some x := by rw [← hget_eq]; exact hcl
              cases hx
              have hn : some n' = some n := by rw [← hi'];  exact hi32
              cases hn
              have hr := parseI32_range x.data n hi32
              have hlen : i32AsU64 n = n.toNat :=
                i32AsU64_of_pos n hpos (by omega)
              refine ⟨s2.take (i32AsU64 n), rfl, ?_, ?_⟩
              · rw [List.length_take, hlen]
                omega
              · intro hshort
                rw [List.length_take, hlen] at hshort
                have hs2 : s2.length < n.toNat := by omega
                show s2.drop (i32AsU64 n) = []
                rw [hlen]
                exact List.drop_eq_nil_of_le (by omega)
            case isFalse hn0 =>
              cases h
              have hx : some x' = some x := by rw [← hget_eq]; exact hcl
              cases hx
              have hn : some n' = some n := by rw [← hi']; exact hi32
              cases hn
              exact absurd (not_not.mp hn0) (by omega)
        case h_2 hget_eq =>
          cases h
          have : (none : Option String) = some x := by rw [← hget_eq]; exact hcl
          cases this
      case isFalse hpost =>
        cases h
        exact absurd hm hpost

/-- Witness for C7 (amended): `Content-Length: 5` with two available bytes
yields the two-byte body and an exhausted stream. -/
theorem c7_witness :
    ∃ b, (some ('a' :: 'b' :: []) : Option (List Char)) = some b ∧
      b.length ≤ (5 : Int).toNat ∧
      (b.length < (5 : Int).toNat → ([] : List Char) = []) :=
  c7_body_at_most_content_length
    ("POST /x HTTP/1.1\r\nContent-Length: 5\r\n\r\nab".data)
    { method := Method.Post, path := "/x", version := "HTTP/1.1",
      headers := [("Content-Length", "5")], body := some ('a' :: 'b' :: []) }
    [] "5" 5 (by decide) rfl (by decide) (by decide) (by decide)

/-- Claim C4: when the request's `Connection` header equals "close"
(case-sensitively), the response written carries a `Connection: close`
header and the connection loop emits exactly that one response and stops;
for any other value (or no header) the loop continues by parsing the next
request from the unconsumed stream. -/
theorem c4_connection_close_semantics :
    ∀ (store : Store) (s : List Char) (req : Request) (rest : List Char) (resp0 : Response),
      parse_request s = .ok (some (req, rest)) →
      route store req = .ok resp0 →
      ((hget req.headers "Connection" = some "close" →
          hget ((should_close req (encode req resp0)).2).headers "Connection" = some "close" ∧
          handle store s = .ok [answer req (should_close req (encode req resp0)).2]) ∧
       (hget req.headers "Connection" ≠ some "close" →
          (should_close req (encode req resp0)).1 = false ∧
          ∀ outs, handle store rest = .ok outs →
            handle store s
              = .ok (answer req (should_close req (encode req resp0)).2 :: outs))) := by
  intro store s req rest resp0 hp hr
  have hstep := handle_step store s req rest resp0 hp hr
  constructor
  · intro hconn
    have hsc1 : (should_close req (encode req resp0)).1 = true := by
      rw [should_close, hconn]
      simp
    have hsc2 : (should_close req (encode req resp0)).2
        = { encode req resp0 with
            headers := hinsert (encode req resp0).headers "Connection" "close" } := by
      rw [should_close, hconn]
      simp
    refine ⟨?_, ?_⟩
    · rw [hsc2]
      exact hget_hinsert_self _ _ _
    · rw [hstep, if_pos hsc1]
  · intro hconn
    have hsc1 : (should_close req (encode req resp0)).1 = false := by
      rw [should_close]
      cases hc : hget req.headers "Connection" with
      | none => rfl
      | some v =>
        have hv : ¬(v = "close") := by
          intro he
          rw [he] at hc
          exact hconn hc
        simp [hv]
    refine ⟨hsc1, ?_⟩
    intro outs houts
    rw [hstep, if_neg (by rw [hsc1]; simp), houts]

/-- Witness for C4: a `Connection: close` request yields exactly one
response, carrying `Connection: close`. -/
theorem c4_witness :
    handle emptyStore ("GET / HTTP/1.1\r\nConnection: close\r\n\r\n".data)
      = .ok ["HTTP/1.1 200 OK\r\nConnection: close\r\nContent-Length: 0\r\n\r\n"] := by
  have h := (c4_connection_close_semantics emptyStore
    ("GET / HTTP/1.1\r\nConnection: close\r\n\r\n".data)
    { method := Method.Get, path := "/", version := "HTTP/1.1",
      headers := [("Connection", "close")], body := none }
    [] (Response.statusOnly Status.Ok) (by decide) (by decide)).1 (by decide)
  exact h.2.trans (by decide)

/-- Claim C5: when some comma-separated, trimmed token of the request's
`Accept-Encoding` equals "gzip" exactly and the response has a body, the
body is replaced by its gzip-compressed form (whose decompression restores
the original bytes) and `Content-Encoding: gzip` is added, the framing
`Content-Length` then being the compressed length; with no body the encoder
changes nothing. -/
theorem c5_gzip_negotiation :
    (∀ (req : Request) (resp : Response) (ae : String) (b : List Char),
      hget req.headers "Accept-Encoding" = some ae →
      (splitChar ',' ae.data).any (fun nm => String.mk (trimChars nm) == "gzip") = true →
      resp.body = some b →
      encode req resp
          = { resp with body := some (gzip b),
                        headers := hinsert resp.headers "Content-Encoding" "gzip" } ∧
        gunzip (gzip b) = b ∧
        hget (answerHeaders (encode req resp)) "Content-Length"
          = some (toString (gzip b).length)) ∧
    (∀ (req : Request) (resp : Response), resp.body = none → encode req resp = resp) := by
  constructor
  · intro req resp ae b hae hany hb
    have henc : encode req resp
        = { resp with body := some (gzip b),
                      headers := hinsert resp.headers "Content-Encoding" "gzip" } := by
      rw [encode, hae, hb]
      simp [hany]
    refine ⟨henc, rfl, ?_⟩
    rw [henc]
    exact hget_hinsert_self _ _ _
  · intro req resp hb
    rw [encode, hb]

/-- Witness for C5: a request accepting "foo, gzip" compresses the "abc"
body, decompression restores it, and Content-Length becomes the compressed
length 5. -/
theorem c5_witness :
    encode { method := Method.Get, path := "/echo/abc", version := "HTTP/1.1",
             headers := [("Accept-Encoding", "foo, gzip")], body := none }
        (Response.text Status.Ok "abc")
      = { status := Status.Ok,
          headers := [("Content-Type", "text/plain"), ("Content-Encoding", "gzip")],
          body := some (Char.ofNat 0x1f :: Char.ofNat 0x8b :: 'a' :: 'b' :: 'c' :: []) } ∧
    gunzip (gzip ('a' :: 'b' :: 'c' :: [])) = ('a' :: 'b' :: 'c' :: []) ∧
    hget (answerHeaders (encode
        { method := Method.Get, path := "/echo/abc", version := "HTTP/1.1",
          headers := [("Accept-Encoding", "foo, gzip")], body := none }
        (Response.text Status.Ok "abc"))) "Content-Length" = some "5" := by
  have h := c5_gzip_negotiation.1
    { method := Method.Get, path := "/echo/abc", version := "HTTP/1.1",
      headers := [("Accept-Encoding", "foo, gzip")], body := none }
    (Response.text Status.Ok "abc") "foo, gzip" ("abc".data)
    (by decide) (by decide) rfl
  exact ⟨h.1.trans (by decide), h.2.1, h.2.2.trans (by decide)⟩

/-- Claim C6: a GET whose path is "/files/" followed by a key is answered
from the store: a successful read gives 200 with the bytes as body and
`Content-Type: application/octet-stream`; a not-found store error gives
404; any other store error gives 500 with the error's display text as a
plain-text body. -/
theorem c6_files_get_store_classification :
    ∀ (store : Store) (req : Request) (k : String),
      req.method = Method.Get →
      req.path = String.mk ('/' :: 'f' :: 'i' :: 'l' :: 'e' :: 's' :: '/' :: k.data) →
      (∀ d, store.read k = .ok d →
          route store req = .ok (Response.binary d) ∧
          (Response.binary d).status = Status.Ok ∧
          (Response.binary d).body = some d ∧
          hget (Response.binary d).headers "Content-Type"
            = some "application/octet-stream") ∧
      (∀ e, store.read k = .error e → e.notFound = true →
          route store req = .ok (Response.statusOnly Status.NotFound)) ∧
      (∀ e, store.read k = .error e → e.notFound = false →
          route store req = .ok (Response.text Status.ServerError e.text) ∧
          (Response.text Status.ServerError e.text).body = some e.text.data ∧
          hget (Response.text Status.ServerError e.text).headers "Content-Type"
            = some "text/plain") := by
  intro store req k hm hp
  have hroute := route_files_get store req k hm hp
  refine ⟨?_, ?_, ?_⟩
  · intro d hd
    rw [hd] at hroute
    exact ⟨hroute, rfl, rfl, rfl⟩
  · intro e he hnf
    rw [he] at hroute
    rw [hroute]
    simp [fileGetResponse, hnf]
  · intro e he hnf
    rw [he] at hroute
    refine ⟨?_, rfl, rfl⟩
    rw [hroute]
    simp [fileGetResponse, hnf]

/-- Witness for C6: on a store holding "hi" under every key, GET
`/files/x.txt` is answered 200 with body "hi" as octet-stream. -/
theorem c6_witness :
    route constStore { method := Method.Get, path := "/files/x.txt", version := "HTTP/1.1",
                       headers := [], body := none }
        = .ok (Response.binary ('h' :: 'i' :: [])) ∧
      (Response.binary ('h' :: 'i' :: [])).status = Status.Ok ∧
      (Response.binary ('h' :: 'i' :: [])).body = some ('h' :: 'i' :: []) ∧
      hget (Response.binary ('h' :: 'i' :: [])).headers "Content-Type"
        = some "application/octet-stream" :=
  (c6_files_get_store_classification constStore
      { method := Method.Get, path := "/files/x.txt", version := "HTTP/1.1",
        headers := [], body := none }
      "x.txt" rfl (by decide)).1 ('h' :: 'i' :: []) rfl

/-- Claim C10: for GET and POST on a "/files/" path, `route` hands the store
the raw remainder of the path after the prefix, verbatim — no normalization
or sanitization — and answers according to the store's result alone. -/
theorem c10_files_key_verbatim :
    ∀ (store : Store) (req : Request) (k : String),
      req.path = String.mk ('/' :: 'f' :: 'i' :: 'l' :: 'e' :: 's' :: '/' :: k.data) →
      (req.method = Method.Get →
        route store req = .ok (fileGetResponse (store.read k))) ∧
      (∀ b, req.method = Method.Post → req.body = some b →
        route store req = .ok (filePostResponse (store.write k b))) := by
  intro store req k hp
  exact ⟨fun hm => route_files_get store req k hm hp,
         fun b hm hb => route_files_post store req k b hm hb hp⟩

/-- Witness for C10 at the traversal key "../secret": the raw key reaches
the store verbatim, as the probing store's 500 body reveals. -/
theorem c10_witness :
    route probeStore { method := Method.Get, path := "/files/../secret",
                       version := "HTTP/1.1", headers := [], body := none }
      = .ok (Response.text Status.ServerError "../secret") := by
  have h := (c10_files_key_verbatim probeStore
      { method := Method.Get, path := "/files/../secret", version := "HTTP/1.1",
        headers := [], body := none }
      "../secret" (by decide)).1 rfl
  exact h.trans (by decide)
